import Mathlib

/-!
Verification development for the MCP SSE client/server bridge.

The definitions below are a shallow embedding of the Python sources:
- client_sse.py : clean_schema, convert_mcp_tools_to_gemini,
  MCPClient.process_query, MCPClient.cleanup
- server_sse.py : run_command, web_search
- main.py : web_search (same body as in server_sse.py)

External collaborators (the generative model, the MCP session, the Tavily
search client, the subprocess layer) are modelled as explicit oracle
functions passed in as parameters, so that the control flow of the
embedded code is exactly that of the source.
-/

namespace MCPBridge

/-- JSON-like values, modelling Python dict/list/scalar data.
Python dicts are modelled as association lists in insertion order
(keys unique in practice). -/
inductive JVal where
  | null : JVal
  | bool (b : Bool) : JVal
  | num (n : Int) : JVal
  | str (s : String) : JVal
  | arr (xs : List JVal) : JVal
  | obj (kvs : List (String × JVal)) : JVal
deriving Repr

/-!
### Schema Sanitizer: clean_schema (client_sse.py lines 185-206)

The Python function mutates a dict in place: it pops the key "title"
from the top level, and, when the value under "properties" is a dict,
replaces each of its values by the recursively cleaned value.  It does
not recurse anywhere else (not into arrays, not into values under other
keys), and it returns non-dict arguments unchanged.  The embedding
returns the resulting value.  Removing the "title" entry before walking
the remaining entries is expressed here by dropping "title" entries
while walking the association list.
-/

mutual

def clean_schema : JVal → JVal
  | JVal.obj kvs => JVal.obj (cleanFields kvs)
  | v => v

/-- One pass over the entries of a dict passed to clean_schema: entries
keyed "title" are removed (the pop), the value of a "properties" entry
is processed by cleanProps, all other entries are kept unchanged. -/
def cleanFields : List (String × JVal) → List (String × JVal)
  | [] => []
  | (k, v) :: rest =>
    if k = "title" then cleanFields rest
    else if k = "properties" then (k, cleanProps v) :: cleanFields rest
    else (k, v) :: cleanFields rest

/-- The value found under "properties": when it is a dict, every value
of that dict is replaced by its clean_schema image (the keys of the
properties dict are kept, even one spelled "title"); otherwise the
isinstance guard fails and the value is left untouched. -/
def cleanProps : JVal → JVal
  | JVal.obj props => JVal.obj (cleanPropFields props)
  | v => v

def cleanPropFields : List (String × JVal) → List (String × JVal)
  | [] => []
  | (k, v) :: rest => (k, clean_schema v) :: cleanPropFields rest

end

mutual

/-- hasTitle v is true when a "title" key occurs anywhere in v, at any
depth, through any chain of keys or array elements. -/
def hasTitle : JVal → Bool
  | JVal.obj kvs => hasTitleFields kvs
  | JVal.arr xs => hasTitleArr xs
  | _ => false

def hasTitleFields : List (String × JVal) → Bool
  | [] => false
  | (k, v) :: rest => (k == "title") || hasTitle v || hasTitleFields rest

def hasTitleArr : List JVal → Bool
  | [] => false
  | v :: rest => hasTitle v || hasTitleArr rest

end

example : hasTitle (clean_schema (JVal.obj
    [("items", JVal.obj [("title", JVal.str "X")])])) = true := by
  simp [clean_schema, cleanFields, hasTitle, hasTitleFields]

example : clean_schema (JVal.obj
    [("type", JVal.str "object"), ("title", JVal.str "Loc"),
     ("properties", JVal.obj
       [("city", JVal.obj [("type", JVal.str "string"), ("title", JVal.str "City")])])])
  = JVal.obj
    [("type", JVal.str "object"),
     ("properties", JVal.obj
       [("city", JVal.obj [("type", JVal.str "string")])])] := by
  simp [clean_schema, cleanFields, cleanProps, cleanPropFields]

mutual

/-- titleFreeP v is true when no "title" key occurs in v at any level
reachable through chains of "properties" keys: the top level of v, the
values of a top-level "properties" dict, their "properties" values, and
so on.  This is exactly the region of the schema that clean_schema
visits. -/
def titleFreeP : JVal → Bool
  | JVal.obj kvs => fieldsTitleFreeP kvs
  | _ => true

def fieldsTitleFreeP : List (String × JVal) → Bool
  | [] => true
  | (k, v) :: rest =>
      (!(k == "title")) &&
      (if k = "properties" then propsTitleFreeP v else true) &&
      fieldsTitleFreeP rest

def propsTitleFreeP : JVal → Bool
  | JVal.obj props => propFieldsTitleFreeP props
  | _ => true

def propFieldsTitleFreeP : List (String × JVal) → Bool
  | [] => true
  | (_, v) :: rest => titleFreeP v && propFieldsTitleFreeP rest

end

mutual

theorem titleFree_clean_schema_aux : (v : JVal) → titleFreeP (clean_schema v) = true
  | JVal.obj kvs => titleFree_cleanFields_aux kvs
  | JVal.null => rfl
  | JVal.bool _ => rfl
  | JVal.num _ => rfl
  | JVal.str _ => rfl
  | JVal.arr _ => rfl

theorem titleFree_cleanFields_aux : (l : List (String × JVal)) →
    fieldsTitleFreeP (cleanFields l) = true
  | [] => rfl
  | (k, v) :: rest => by
      by_cases hk : k = "title"
      · simp only [cleanFields, if_pos hk]
        exact titleFree_cleanFields_aux rest
      · by_cases hp : k = "properties"
        · simp only [cleanFields, if_neg hk, if_pos hp, fieldsTitleFreeP]
          simp [hk, hp, titleFree_cleanProps_aux v, titleFree_cleanFields_aux rest]
        · simp only [cleanFields, if_neg hk, if_neg hp, fieldsTitleFreeP]
          simp [hk, hp, titleFree_cleanFields_aux rest]

theorem titleFree_cleanProps_aux : (v : JVal) → propsTitleFreeP (cleanProps v) = true
  | JVal.obj props => titleFree_cleanPropFields_aux props
  | JVal.null => rfl
  | JVal.bool _ => rfl
  | JVal.num _ => rfl
  | JVal.str _ => rfl
  | JVal.arr _ => rfl

theorem titleFree_cleanPropFields_aux : (l : List (String × JVal)) →
    propFieldsTitleFreeP (cleanPropFields l) = true
  | [] => rfl
  | (_, v) :: rest => by
      simp only [cleanPropFields, propFieldsTitleFreeP]
      simp [titleFree_clean_schema_aux v, titleFree_cleanPropFields_aux rest]

end

mutual

theorem clean_schema_idem_aux : (v : JVal) →
    clean_schema (clean_schema v) = clean_schema v
  | JVal.obj kvs => congrArg JVal.obj (cleanFields_idem_aux kvs)
  | JVal.null => rfl
  | JVal.bool _ => rfl
  | JVal.num _ => rfl
  | JVal.str _ => rfl
  | JVal.arr _ => rfl

theorem cleanFields_idem_aux : (l : List (String × JVal)) →
    cleanFields (cleanFields l) = cleanFields l
  | [] => rfl
  | (k, v) :: rest => by
      by_cases hk : k = "title"
      · simp only [cleanFields, if_pos hk]
        exact cleanFields_idem_aux rest
      · by_cases hp : k = "properties"
        · simp only [cleanFields, if_neg hk, if_pos hp]
          simp [cleanFields, hk, hp, cleanProps_idem_aux v, cleanFields_idem_aux rest]
        · simp only [cleanFields, if_neg hk, if_neg hp]
          simp [cleanFields, hk, hp, cleanFields_idem_aux rest]

theorem cleanProps_idem_aux : (v : JVal) → cleanProps (cleanProps v) = cleanProps v
  | JVal.obj props => congrArg JVal.obj (cleanPropFields_idem_aux props)
  | JVal.null => rfl
  | JVal.bool _ => rfl
  | JVal.num _ => rfl
  | JVal.str _ => rfl
  | JVal.arr _ => rfl

theorem cleanPropFields_idem_aux : (l : List (String × JVal)) →
    cleanPropFields (cleanPropFields l) = cleanPropFields l
  | [] => rfl
  | (_, v) :: rest => by
      simp only [cleanPropFields]
      simp [clean_schema_idem_aux v, cleanPropFields_idem_aux rest]

end

mutual

/-- Erases a b states that b is obtained from a by deleting zero or more
entries keyed "title" (at any depth) and changing nothing else: every
other entry keeps its key, its position and its value up to the same
kind of deletions inside the value. -/
inductive Erases : JVal → JVal → Prop where
  | null : Erases JVal.null JVal.null
  | bool (b : Bool) : Erases (JVal.bool b) (JVal.bool b)
  | num (n : Int) : Erases (JVal.num n) (JVal.num n)
  | str (s : String) : Erases (JVal.str s) (JVal.str s)
  | arr (xs ys : List JVal) : ErasesList xs ys → Erases (JVal.arr xs) (JVal.arr ys)
  | obj (kvs kvs2 : List (String × JVal)) : ErasesFields kvs kvs2 →
      Erases (JVal.obj kvs) (JVal.obj kvs2)

inductive ErasesList : List JVal → List JVal → Prop where
  | nil : ErasesList [] []
  | cons (v v2 : JVal) (rest rest2 : List JVal) :
      Erases v v2 → ErasesList rest rest2 → ErasesList (v :: rest) (v2 :: rest2)

inductive ErasesFields : List (String × JVal) → List (String × JVal) → Prop where
  | nil : ErasesFields [] []
  | keep (k : String) (v v2 : JVal) (rest rest2 : List (String × JVal)) :
      Erases v v2 → ErasesFields rest rest2 →
      ErasesFields ((k, v) :: rest) ((k, v2) :: rest2)
  | dropTitle (v : JVal) (rest rest2 : List (String × JVal)) :
      ErasesFields rest rest2 → ErasesFields (("title", v) :: rest) rest2

end

mutual

theorem erases_refl_aux : (v : JVal) → Erases v v
  | JVal.null => Erases.null
  | JVal.bool b => Erases.bool b
  | JVal.num n => Erases.num n
  | JVal.str s => Erases.str s
  | JVal.arr xs => Erases.arr xs xs (erasesList_refl_aux xs)
  | JVal.obj kvs => Erases.obj kvs kvs (erasesFields_refl_aux kvs)

theorem erasesList_refl_aux : (xs : List JVal) → ErasesList xs xs
  | [] => ErasesList.nil
  | v :: rest => ErasesList.cons v v rest rest (erases_refl_aux v) (erasesList_refl_aux rest)

theorem erasesFields_refl_aux : (l : List (String × JVal)) → ErasesFields l l
  | [] => ErasesFields.nil
  | (k, v) :: rest =>
      ErasesFields.keep k v v rest rest (erases_refl_aux v) (erasesFields_refl_aux rest)

end

mutual

theorem erases_clean_schema_aux : (v : JVal) → Erases v (clean_schema v)
  | JVal.obj kvs => Erases.obj kvs (cleanFields kvs) (erasesFields_cleanFields_aux kvs)
  | JVal.null => Erases.null
  | JVal.bool b => Erases.bool b
  | JVal.num n => Erases.num n
  | JVal.str s => Erases.str s
  | JVal.arr xs => Erases.arr xs xs (erasesList_refl_aux xs)

theorem erasesFields_cleanFields_aux : (l : List (String × JVal)) →
    ErasesFields l (cleanFields l)
  | [] => ErasesFields.nil
  | (k, v) :: rest => by
      by_cases hk : k = "title"
      · subst hk
        simp only [cleanFields, if_pos rfl]
        exact ErasesFields.dropTitle v rest (cleanFields rest)
          (erasesFields_cleanFields_aux rest)
      · by_cases hp : k = "properties"
        · simp only [cleanFields, if_neg hk, if_pos hp]
          exact ErasesFields.keep k v (cleanProps v) rest (cleanFields rest)
            (erases_cleanProps_aux v) (erasesFields_cleanFields_aux rest)
        · simp only [cleanFields, if_neg hk, if_neg hp]
          exact ErasesFields.keep k v v rest (cleanFields rest)
            (erases_refl_aux v) (erasesFields_cleanFields_aux rest)

theorem erases_cleanProps_aux : (v : JVal) → Erases v (cleanProps v)
  | JVal.obj props => Erases.obj props (cleanPropFields props)
      (erasesFields_cleanPropFields_aux props)
  | JVal.null => Erases.null
  | JVal.bool b => Erases.bool b
  | JVal.num n => Erases.num n
  | JVal.str s => Erases.str s
  | JVal.arr xs => Erases.arr xs xs (erasesList_refl_aux xs)

theorem erasesFields_cleanPropFields_aux : (l : List (String × JVal)) →
    ErasesFields l (cleanPropFields l)
  | [] => ErasesFields.nil
  | (k, v) :: rest =>
      ErasesFields.keep k v (clean_schema v) rest (cleanPropFields rest)
        (erases_clean_schema_aux v) (erasesFields_cleanPropFields_aux rest)

end

/-- C1, counterexample: clean_schema does not remove "title" keys at
every depth.  On the schema obj [("items", obj [("title", str "X")])]
the nested "title" sits under the key "items", which is not a
"properties" chain, and clean_schema leaves it in place: hasTitle is
still true of the output, refuting the claim that the result contains
no "title" key at any depth. -/
theorem clean_schema_keeps_title_outside_properties :
    hasTitle (clean_schema (JVal.obj
      [("items", JVal.obj [("title", JVal.str "X")])])) = true := rfl

/-- C1, amended: for every nested schema mapping, clean_schema returns a
mapping with no "title" key at any level reachable through chains of
"properties" keys (the top level, the values of a "properties" dict,
their "properties" values, and so on); "title" keys nested under other
keys may remain. -/
theorem clean_schema_title_free_on_properties_chains (schema : JVal) :
    titleFreeP (clean_schema schema) = true :=
  titleFree_clean_schema_aux schema

/-- C7: the schema sanitizer is idempotent; for every nested schema
mapping s, clean_schema (clean_schema s) equals clean_schema s. -/
theorem clean_schema_idempotent (s : JVal) :
    clean_schema (clean_schema s) = clean_schema s :=
  clean_schema_idem_aux s

/-- C9: clean_schema changes nothing except "title" keys.  The output is
related to the input by Erases, which allows only the deletion of
entries keyed "title": every other key present in the input, at the top
level and at every nesting level, is still present in the output at the
same position with its value unchanged except for such deletions inside
it.  clean_schema is a total function of the whole JVal type, so it
does not fail on schemas lacking "properties", lacking "title", or
containing non-mapping leaf values. -/
theorem clean_schema_frame (schema : JVal) : Erases schema (clean_schema schema) :=
  erases_clean_schema_aux schema

/-!
### Tool Descriptor Translator: convert_mcp_tools_to_gemini
(client_sse.py lines 208-240)
-/

/-- An MCP tool descriptor as consumed by the translator: name,
description and JSON-schema-like input schema. -/
structure MCPTool where
  name : String
  description : String
  inputSchema : JVal
deriving Repr

/-- A Gemini function declaration as built by the translator. -/
structure FunctionDeclaration where
  name : String
  description : String
  parameters : JVal
deriving Repr

/-- A Gemini tool group: a list of function declarations. -/
structure GeminiTool where
  function_declarations : List FunctionDeclaration
deriving Repr

/-- The fixed return-type suffix appended to every description in
convert_mcp_tools_to_gemini. -/
def returnTypeSuffix : String := " The tool returns its result as a string."

/-- Embedding of convert_mcp_tools_to_gemini: for each tool, sanitize
its input schema, append the return-type note to its description, build
one function declaration and wrap it alone in its own tool group,
appending the groups in input order. -/
def convert_mcp_tools_to_gemini (mcp_tools : List MCPTool) : List GeminiTool :=
  mcp_tools.map (fun tool =>
    { function_declarations :=
        [{ name := tool.name,
           description := tool.description ++ " The tool returns its result as a string.",
           parameters := clean_schema tool.inputSchema }] })

/-- C5: for every list of N tool descriptors with distinct names, the
translator returns exactly N groups in input order, group i holding
exactly one declaration, whose name is descriptor i's name, whose
description is descriptor i's description followed by the fixed
return-type suffix, and whose parameters are the sanitized schema. -/
theorem convert_mcp_tools_to_gemini_spec (tools : List MCPTool)
    (hnd : (tools.map MCPTool.name).Nodup) :
    (convert_mcp_tools_to_gemini tools).length = tools.length ∧
    ∀ i (hi : i < tools.length) (hg : i < (convert_mcp_tools_to_gemini tools).length),
      ((convert_mcp_tools_to_gemini tools).get ⟨i, hg⟩).function_declarations =
        [{ name := (tools.get ⟨i, hi⟩).name,
           description := (tools.get ⟨i, hi⟩).description ++ returnTypeSuffix,
           parameters := clean_schema (tools.get ⟨i, hi⟩).inputSchema }] := by
  refine ⟨by simp [convert_mcp_tools_to_gemini], ?_⟩
  intro i hi hg
  simp [convert_mcp_tools_to_gemini, returnTypeSuffix]

/-- Two concrete distinct-name descriptors used to witness C5. -/
def demoTools : List MCPTool :=
  [{ name := "web_search", description := "Search the web using Tavily",
     inputSchema := JVal.obj [("type", JVal.str "object"), ("title", JVal.str "S")] },
   { name := "add_integers", description := "Add two positive integers",
     inputSchema := JVal.obj [("type", JVal.str "object")] }]

/-- C5, witness: the translation theorem applied to the two concrete
descriptors of demoTools, whose names are distinct. -/
theorem convert_mcp_tools_to_gemini_spec_witness :
    (convert_mcp_tools_to_gemini demoTools).length = demoTools.length ∧
    ∀ i (hi : i < demoTools.length)
      (hg : i < (convert_mcp_tools_to_gemini demoTools).length),
      ((convert_mcp_tools_to_gemini demoTools).get ⟨i, hg⟩).function_declarations =
        [{ name := (demoTools.get ⟨i, hi⟩).name,
           description := (demoTools.get ⟨i, hi⟩).description ++ returnTypeSuffix,
           parameters := clean_schema (demoTools.get ⟨i, hi⟩).inputSchema }] :=
  convert_mcp_tools_to_gemini_spec demoTools (by decide)

/-!
### Tool-Call Loop: MCPClient.process_query (client_sse.py lines 90-163)

The generative model and the MCP session are external collaborators;
they are passed in as oracle functions gen (model.generate_content) and
callTool (session.call_tool).  The embedding returns, besides the
joined text, the list of requests sent to gen (in order) and the list
of tool calls dispatched to callTool (in order), so that theorems can
speak about what was sent where.  Note on the source: the loop
variable response is reassigned at line 152 inside the loop body, but
the two for loops iterate over the first response's candidates and
parts, captured when the loops started, so only the original response's
parts are ever scanned for function calls.
-/

/-- Arguments of a function call after dict coercion: a string-keyed
mapping. -/
abbrev Args := List (String × JVal)

/-- One content part of a model response: plain text, or a function
call.  Coercing the protobuf args with dict(...) can raise, so the part
carries the coercion outcome as an Except. -/
inductive Part where
  | text (s : String)
  | functionCall (name : String) (args : Except String Args)

structure Content where
  parts : List Part

structure Candidate where
  content : Content

structure Response where
  candidates : List Candidate

/-- Reading .text on a part: the string of a text part; the empty
string on a function-call part (protobuf field access semantics). -/
def partText : Part → String
  | Part.text s => s
  | Part.functionCall _ _ => ""

/-- One content dict sent to model.generate_content: the user prompt,
the echoed function-call content (role model), or the function-response
content (role function) built at client_sse.py lines 128-149. -/
inductive Turn where
  | user (text : String)
  | modelFunctionCall (name : String) (args : Args)
  | functionResponse (name : String) (content : String)

/-- The value returned by session.call_tool as inspected by
process_query at lines 118-123: a list, a dict, or any other value
rendered by str(). -/
inductive ToolResult where
  | jlist (xs : List JVal)
  | jdict (kvs : List (String × JVal))
  | other (s : String)

mutual

/-- json.dumps on a JVal (string escaping elided; not exercised by any
theorem below). -/
def jdump : JVal → String
  | JVal.null => "null"
  | JVal.bool b => if b then "true" else "false"
  | JVal.num n => toString n
  | JVal.str s => "\"" ++ s ++ "\""
  | JVal.arr xs => "[" ++ jdumpArr xs ++ "]"
  | JVal.obj kvs => "\x7b" ++ jdumpObj kvs ++ "\x7d"

def jdumpArr : List JVal → String
  | [] => ""
  | [v] => jdump v
  | v :: rest => jdump v ++ ", " ++ jdumpArr rest

def jdumpObj : List (String × JVal) → String
  | [] => ""
  | [(k, v)] => "\"" ++ k ++ "\": " ++ jdump v
  | (k, v) :: rest => "\"" ++ k ++ "\": " ++ jdump v ++ ", " ++ jdumpObj rest

end

/-- Lines 118-123: json.dumps for list/dict results, str() otherwise. -/
def serializeResult : ToolResult → String
  | ToolResult.jlist xs => jdump (JVal.arr xs)
  | ToolResult.jdict kvs => jdump (JVal.obj kvs)
  | ToolResult.other s => s

/-- Lines 107-111: tool_args is dict(part.function_call.args), with a
failed coercion logged and replaced by the empty dict. -/
def coerceArgs : Except String Args → Args
  | Except.ok a => a
  | Except.error _ => []

/-- Lines 115-125: the function response content string — the
serialized result on success, or "Tool error: " followed by str(e)
when session.call_tool raised. -/
def toolResponseText (callTool : String → Args → Except String ToolResult)
    (toolName : String) (args : Args) : String :=
  match callTool toolName args with
  | Except.ok r => serializeResult r
  | Except.error e => "Tool error: " ++ e

/-- Lines 152-156: the continuation request sent back to the model —
user query, echoed function call, and function response. -/
def continuationTurns (userQuery toolName : String) (args : Args)
    (fresp : String) : List Turn :=
  [Turn.user userQuery, Turn.modelFunctionCall toolName args,
   Turn.functionResponse toolName fresp]

/-- Lines 158-159: the text appended after a continuation call — the
first part's text of the first candidate, when both exist. -/
def leadText (r : Response) : List String :=
  match r.candidates with
  | [] => []
  | c :: _ =>
    match c.content.parts with
    | [] => []
    | p :: _ => [partText p]

/-- The observable outcome of process_query: the returned string, the
requests sent to the model (in order, the initial request first) and
the tool calls dispatched to the session (in order). -/
structure PQResult where
  text : String
  genLog : List (List Turn)
  dispatched : List (String × Args)

/-- Lines 104-161: the inner loop over the parts of one candidate of
the original response. -/
def processParts (gen : List Turn → Response)
    (callTool : String → Args → Except String ToolResult) (query : String) :
    List Part → List String × List (List Turn) × List (String × Args)
  | [] => ([], [], [])
  | Part.text s :: rest =>
      let r := processParts gen callTool query rest
      (s :: r.1, r.2.1, r.2.2)
  | Part.functionCall toolName argsE :: rest =>
      let args := coerceArgs argsE
      let fresp := toolResponseText callTool toolName args
      let cont := gen (continuationTurns query toolName args fresp)
      let r := processParts gen callTool query rest
      (leadText cont ++ r.1,
       continuationTurns query toolName args fresp :: r.2.1,
       (toolName, args) :: r.2.2)

/-- Lines 102-103: the outer loop over candidates, skipping candidates
with an empty parts list. -/
def processCandidates (gen : List Turn → Response)
    (callTool : String → Args → Except String ToolResult) (query : String) :
    List Candidate → List String × List (List Turn) × List (String × Args)
  | [] => ([], [], [])
  | c :: rest =>
      let here := if c.content.parts.isEmpty then ([], [], [])
                  else processParts gen callTool query c.content.parts
      let r := processCandidates gen callTool query rest
      (here.1 ++ r.1, here.2.1 ++ r.2.1, here.2.2 ++ r.2.2)

/-- Embedding of MCPClient.process_query: one initial generation, a
scan over the original response's parts, and a newline join of the
accumulated text. -/
def process_query (gen : List Turn → Response)
    (callTool : String → Args → Except String ToolResult)
    (query : String) : PQResult :=
  let response := gen [Turn.user query]
  let r := processCandidates gen callTool query response.candidates
  { text := String.intercalate "\n" r.1,
    genLog := [Turn.user query] :: r.2.1,
    dispatched := r.2.2 }

/-- The function-call parts syntactically present in a list of parts,
with their coerced arguments. -/
def partCalls : List Part → List (String × Args)
  | [] => []
  | Part.functionCall n argsE :: rest => (n, coerceArgs argsE) :: partCalls rest
  | Part.text _ :: rest => partCalls rest

/-- The function-call parts of a whole response, candidate by
candidate, skipping candidates with an empty parts list exactly as the
loop does. -/
def responseFunctionCalls (r : Response) : List (String × Args) :=
  (r.candidates.map (fun c =>
    if c.content.parts.isEmpty then [] else partCalls c.content.parts)).flatten

theorem processParts_calls (gen : List Turn → Response)
    (callTool : String → Args → Except String ToolResult) (query : String) :
    ∀ parts : List Part,
      (processParts gen callTool query parts).2.2 = partCalls parts ∧
      (processParts gen callTool query parts).2.1.length = (partCalls parts).length := by
  intro parts
  induction parts with
  | nil => exact ⟨rfl, rfl⟩
  | cons p rest ih =>
      cases p with
      | text s => simpa [processParts, partCalls] using ih
      | functionCall n argsE =>
          simp [processParts, partCalls, ih.1, ih.2]

theorem processCandidates_calls (gen : List Turn → Response)
    (callTool : String → Args → Except String ToolResult) (query : String) :
    ∀ cs : List Candidate,
      (processCandidates gen callTool query cs).2.2 =
        (cs.map (fun c =>
          if c.content.parts.isEmpty then [] else partCalls c.content.parts)).flatten ∧
      (processCandidates gen callTool query cs).2.1.length =
        ((cs.map (fun c =>
          if c.content.parts.isEmpty then [] else partCalls c.content.parts)).flatten).length := by
  intro cs
  induction cs with
  | nil => exact ⟨rfl, rfl⟩
  | cons c rest ih =>
      by_cases hc : c.content.parts.isEmpty
      · simp [processCandidates, hc, ih.1, ih.2]
      · simp [processCandidates, hc, ih.1, ih.2,
          (processParts_calls gen callTool query c.content.parts).1,
          (processParts_calls gen callTool query c.content.parts).2]

/-- C6: for every query, the tool calls process_query dispatches to
callTool are exactly the function-call parts of the original model
response (so function-call parts of a continuation response are never
dispatched), and the number of model generation requests is one plus
the number of those parts — one initial request plus at most (exactly)
one continuation per function-call part of the original response. -/
theorem process_query_single_hop (gen : List Turn → Response)
    (callTool : String → Args → Except String ToolResult) (query : String) :
    (process_query gen callTool query).dispatched =
      responseFunctionCalls (gen [Turn.user query]) ∧
    (process_query gen callTool query).genLog.length =
      1 + (responseFunctionCalls (gen [Turn.user query])).length := by
  constructor
  · simpa [process_query, responseFunctionCalls] using
      (processCandidates_calls gen callTool query (gen [Turn.user query]).candidates).1
  · simp [process_query, responseFunctionCalls,
      (processCandidates_calls gen callTool query (gen [Turn.user query]).candidates).2]
    omega

/-- A concrete model oracle: the initial request gets one candidate
holding a single function-call part; any other request (in particular
the continuation) gets one candidate holding a single empty text
part. -/
def genToolErrDemo : List Turn → Response
  | [Turn.user _] =>
      { candidates := [{ content :=
          { parts := [Part.functionCall "run_command" (Except.ok [])] } }] }
  | _ =>
      { candidates := [{ content := { parts := [Part.text ""] } }] }

/-- A session oracle whose call_tool always raises. -/
def callToolRaises : String → Args → Except String ToolResult :=
  fun _ _ => Except.error "Connection closed"

/-- C2, counterexample: with a model whose original response requests a
tool call and whose continuation response carries an empty text part,
and with a callTool that raises, process_query returns the empty
string — not a non-empty string containing an error indicator as the
claim states. -/
theorem process_query_tool_error_empty_return :
    callToolRaises "run_command" [] = Except.error "Connection closed" ∧
    (process_query genToolErrDemo callToolRaises "list files").text = "" :=
  ⟨rfl, rfl⟩

/-- C2, amended: when the original model response consists of one
function-call part and callTool raises with message e, process_query
still returns normally (the exception is caught at lines 124-125): the
model is re-invoked with a function response whose content is the text
"Tool error: " followed by e — never silence — and the string returned
by process_query is the continuation response's leading text, which
need not be non-empty and need not contain an error indicator. -/
theorem process_query_tool_error_behavior (gen : List Turn → Response)
    (callTool : String → Args → Except String ToolResult)
    (q n : String) (args : Args) (e : String)
    (hgen : gen [Turn.user q] =
      { candidates := [{ content :=
          { parts := [Part.functionCall n (Except.ok args)] } }] })
    (hct : callTool n args = Except.error e) :
    (process_query gen callTool q).genLog =
      [[Turn.user q], continuationTurns q n args ("Tool error: " ++ e)] ∧
    (process_query gen callTool q).text =
      String.intercalate "\n"
        (leadText (gen (continuationTurns q n args ("Tool error: " ++ e)))) := by
  constructor <;>
    simp [process_query, hgen, processCandidates, processParts, coerceArgs,
      toolResponseText, hct, List.isEmpty]

/-- C2, witness for the amended theorem: the amended theorem applied at
the concrete oracles genToolErrDemo and callToolRaises, whose
hypotheses hold by computation. -/
theorem process_query_tool_error_behavior_witness :
    (process_query genToolErrDemo callToolRaises "list files").genLog =
      [[Turn.user "list files"],
       continuationTurns "list files" "run_command" []
         ("Tool error: " ++ "Connection closed")] ∧
    (process_query genToolErrDemo callToolRaises "list files").text =
      String.intercalate "\n"
        (leadText (genToolErrDemo
          (continuationTurns "list files" "run_command" []
            ("Tool error: " ++ "Connection closed")))) :=
  process_query_tool_error_behavior genToolErrDemo callToolRaises
    "list files" "run_command" [] "Connection closed" rfl rfl

/-!
### Session Manager: MCPClient.cleanup (client_sse.py lines 75-85)

The two async context managers (_session_context for the ClientSession,
_streams_context for the SSE stream pair) are external objects; each is
modelled by the outcome of awaiting its __aexit__.  cleanup is:

    if self._session_context: await self._session_context.__aexit__(...)
    if self._streams_context: await self._streams_context.__aexit__(...)

There is no try/except around either await, so an exception raised by
an __aexit__ propagates out of cleanup (and then the second __aexit__
is not reached).  The contexts are not reset to None, so a second call
re-invokes the same exits.  The embedding returns the Except outcome
together with the ordered trace of exits that were invoked.
-/

/-- An async context manager seen from cleanup: the outcome of awaiting
its __aexit__ — ok, or an exception with the given message. -/
structure AsyncCtx where
  aexitResult : Except String Unit

/-- The fields of MCPClient that cleanup reads. -/
structure MCPClient where
  _session_context : Option AsyncCtx
  _streams_context : Option AsyncCtx

inductive TeardownEvent where
  | sessionExit
  | streamsExit
deriving DecidableEq, Repr

/-- Embedding of MCPClient.cleanup: exits the session context when set,
then the streams context when set; an exception from the first await
propagates and skips the second.  Returns the outcome and the ordered
trace of __aexit__ invocations. -/
def cleanup (c : MCPClient) : Except String Unit × List TeardownEvent :=
  match c._session_context with
  | some ctx =>
      (match ctx.aexitResult with
       | Except.error e => (Except.error e, [TeardownEvent.sessionExit])
       | Except.ok _ =>
          match c._streams_context with
          | some ctx2 =>
              (ctx2.aexitResult, [TeardownEvent.sessionExit, TeardownEvent.streamsExit])
          | none => (Except.ok (), [TeardownEvent.sessionExit]))
  | none =>
      match c._streams_context with
      | some ctx2 => (ctx2.aexitResult, [TeardownEvent.streamsExit])
      | none => (Except.ok (), [])

/-- C4, counterexample: a client whose session context's __aexit__
raises (a broken resource).  cleanup re-raises that teardown error to
the caller instead of swallowing it, refuting the claim that teardown
errors are never re-raised. -/
theorem cleanup_reraises_teardown_error :
    (cleanup { _session_context := some { aexitResult := Except.error "stream closed" },
               _streams_context := none }).1 = Except.error "stream closed" := rfl

/-- C4, amended: cleanup called before connect created either context
does not raise (both fields are None and both exits are skipped), and
calling it again cannot raise either since the fields are unchanged;
in general cleanup does not raise provided every context it holds exits
without raising — but a teardown error raised by a context's __aexit__
is not caught and propagates to the caller. -/
theorem cleanup_no_raise_when_exits_ok (c : MCPClient)
    (h1 : ∀ ctx, c._session_context = some ctx → ctx.aexitResult = Except.ok ())
    (h2 : ∀ ctx, c._streams_context = some ctx → ctx.aexitResult = Except.ok ()) :
    (cleanup c).1 = Except.ok () := by
  unfold cleanup
  cases hs : c._session_context with
  | none =>
      cases ht : c._streams_context with
      | none => rfl
      | some ctx2 => simp [h2 ctx2 ht]
  | some ctx =>
      have := h1 ctx hs
      cases ht : c._streams_context with
      | none => simp [this]
      | some ctx2 => simp [this, h2 ctx2 ht]

/-- C4, witness: the amended theorem applied to the freshly constructed
client (both context fields None, as set by __init__ before connect),
whose hypotheses hold vacuously. -/
theorem cleanup_no_raise_when_exits_ok_witness :
    (cleanup { _session_context := none, _streams_context := none }).1 =
      Except.ok () :=
  cleanup_no_raise_when_exits_ok
    { _session_context := none, _streams_context := none }
    (fun _ h => by cases h) (fun _ h => by cases h)

/-- C8: cleanup releases the session strictly before the transport and
tears down only what exists.  The trace of __aexit__ invocations is
always a sublist of [sessionExit, streamsExit] (so whenever both are
released, the session exit happens first and neither is released
twice); an exit event occurs only when the corresponding context was
actually created; and each resource is released whenever it exists and
the teardown reaches it — the session unconditionally, the transport
when no session teardown error preempted it. -/
theorem cleanup_order (c : MCPClient) :
    (cleanup c).2.Sublist [TeardownEvent.sessionExit, TeardownEvent.streamsExit] ∧
    (TeardownEvent.sessionExit ∈ (cleanup c).2 → c._session_context ≠ none) ∧
    (TeardownEvent.streamsExit ∈ (cleanup c).2 → c._streams_context ≠ none) ∧
    (c._session_context ≠ none → TeardownEvent.sessionExit ∈ (cleanup c).2) ∧
    (∀ ctx, c._session_context = some ctx → ctx.aexitResult = Except.ok () →
      c._streams_context ≠ none → (cleanup c).2 =
        [TeardownEvent.sessionExit, TeardownEvent.streamsExit]) := by
  unfold cleanup
  cases hs : c._session_context with
  | none =>
      cases ht : c._streams_context with
      | none => simp
      | some ctx2 => simp
  | some ctx =>
      cases hr : ctx.aexitResult with
      | error e => simp [hr]
      | ok u =>
          cases ht : c._streams_context with
          | none => simp [hr]
          | some ctx2 => simp [hr]

/-- C8, witness: cleanup_order applied to a concrete fully connected
client with cleanly exiting contexts; the trace is the full ordered
teardown [sessionExit, streamsExit]. -/
theorem cleanup_order_witness :
    (cleanup { _session_context := some { aexitResult := Except.ok () },
               _streams_context := some { aexitResult := Except.ok () } }).2 =
      [TeardownEvent.sessionExit, TeardownEvent.streamsExit] :=
  (cleanup_order { _session_context := some { aexitResult := Except.ok () },
                   _streams_context := some { aexitResult := Except.ok () } }).2.2.2.2
    { aexitResult := Except.ok () } rfl rfl (by simp)

/-!
### run_command (server_sse.py lines 22-45)

The call at lines 36-42 passes subprocess.run only the keyword
arguments shell, cwd, capture_output and text, and omits the required
positional argument (the command string is never forwarded).  Python
therefore raises TypeError inside the try block before any process is
spawned, and the except branch returns str(e).
-/

def DEFAULT_WORKSPACE : String := "D:/OFFICE PENTA/New folder/mcp-sse/mcp_workspace"

/-- The arguments of the subprocess.run call.  argv models the required
positional args parameter of subprocess.run; none means the call site
omitted it. -/
structure RunArgs where
  argv : Option String
  shell : Bool
  cwd : String
  capture_output : Bool
  text : Bool

/-- Model of subprocess.run over an executor oracle mapping (cwd,
command) to (stdout, stderr): when the required positional argv is
missing, Python raises TypeError before running anything; otherwise
the command runs in cwd and its captured output is returned.  The
quote marks Python puts around the parameter name in the TypeError
message are elided. -/
def subprocess_run (exec : String → String → String × String) (a : RunArgs) :
    Except String (String × String) :=
  match a.argv with
  | none =>
      Except.error "Popen.__init__() missing 1 required positional argument: args"
  | some cmd => Except.ok (exec a.cwd cmd)

/-- Embedding of run_command: the source calls subprocess.run with
shell=True, cwd=DEFAULT_WORKSPACE, capture_output=True, text=True and
no positional argument (the command parameter of run_command is
unused); on success it returns result.stdout or result.stderr (stdout
when non-empty, stderr otherwise), and any exception is caught and
rendered by str. -/
def run_command (exec : String → String → String × String)
    (command : String) : String :=
  match subprocess_run exec
      { argv := none, shell := true, cwd := DEFAULT_WORKSPACE,
        capture_output := true, text := true } with
  | Except.ok r => if r.1 ≠ "" then r.1 else r.2
  | Except.error e => e

/-- C3, code bug: run_command never executes the given command.  For
every executor oracle and every command — in particular the failing
input "echo hi" with an executor that would have produced stdout —
run_command returns the TypeError text raised because the
subprocess.run call omits its required positional argument, not the
command's standard output or standard error. -/
theorem run_command_returns_typeerror
    (exec : String → String → String × String) (command : String) :
    run_command exec command =
      "Popen.__init__() missing 1 required positional argument: args" := rfl

/-!
### web_search (server_sse.py lines 51-65 and main.py lines 23-30)

Both files define the same tool body: inside a try block the Tavily
client is queried and response["results"] is returned; any exception is
caught and a dict with the single key "error" holding str(e) is
returned — although the declared return type is List[Dict].  The
Tavily client is an oracle returning the parsed response or raising.
-/

/-- Python subscript response["results"]: the value when response is a
dict containing the key; a KeyError otherwise (str of a KeyError is
the key, quote marks elided); a TypeError when response is not a
dict. -/
def pySubscript (v : JVal) (k : String) : Except String JVal :=
  match v with
  | JVal.obj kvs =>
      match kvs.lookup k with
      | some x => Except.ok x
      | none => Except.error k
  | _ => Except.error ("object is not subscriptable: " ++ k)

/-- Embedding of web_search: query the Tavily client, return the
"results" entry of the response; any exception raised inside the try
block yields the dict with the single key "error" holding str(e). -/
def web_search (search : String → Except String JVal) (query : String) : JVal :=
  match search query with
  | Except.error e => JVal.obj [("error", JVal.str e)]
  | Except.ok response =>
      match pySubscript response "results" with
      | Except.ok v => v
      | Except.error e => JVal.obj [("error", JVal.str e)]

/-- isArrVal v is true exactly when v is a JSON list, the shape the
declared return type List[Dict] of web_search promises. -/
def isArrVal : JVal → Bool
  | JVal.arr _ => true
  | _ => false

/-- C10: whenever the underlying search client raises, web_search does
not propagate the exception: it returns the mapping with the single
key "error" holding the exception text — a mapping, not the list of
result mappings its declared return type promises. -/
theorem web_search_error_dict (search : String → Except String JVal)
    (query e : String) (h : search query = Except.error e) :
    web_search search query = JVal.obj [("error", JVal.str e)] ∧
    isArrVal (web_search search query) = false := by
  constructor <;> simp [web_search, h, isArrVal]

/-- A Tavily client oracle that always raises. -/
def searchRaisesDemo : String → Except String JVal :=
  fun _ => Except.error "401 Unauthorized"

/-- C10, witness: the theorem applied at the concrete always-raising
client and the query "lean". -/
theorem web_search_error_dict_witness :
    web_search searchRaisesDemo "lean" =
      JVal.obj [("error", JVal.str "401 Unauthorized")] ∧
    isArrVal (web_search searchRaisesDemo "lean") = false :=
  web_search_error_dict searchRaisesDemo "lean" "401 Unauthorized" rfl

end MCPBridge
